import Mathlib

/-!
Verification of the Reya dashboard data pipelines (fetch → normalize → derive).

The definitions below are a shallow embedding of the pipeline logic of the three
dashboard pages.  JSON scalars are modelled by `JVal`, records by association
lists, floating-point numbers by exact rationals `ℚ` with the missing-value
marker NaN modelled as `Option.none`, and the IEEE special values produced by
division by zero by the small type `F` (finite / +inf / -inf / NaN).
-/

namespace Reya

/-- A JSON scalar value as it appears in a record of an API response. -/
inductive JVal where
  | str (s : String)
  | num (q : ℚ)
  | null
deriving DecidableEq

/-- A raw JSON record: an association list of field names to scalar values. -/
abbrev RawRecord := List (String × JVal)

/-- Value of field `k` in record `r`, `none` when the key is absent. -/
def getVal (r : RawRecord) (k : String) : Option JVal :=
  (r.find? (fun p => p.1 == k)).map (fun p => p.2)

/-- Whether record `r` carries the key `k`. -/
def hasKey (r : RawRecord) (k : String) : Bool :=
  (getVal r k).isSome

/-- Whether any record of the snapshot carries the key `k`; this is exactly
membership of `k` in the columns of `pd.DataFrame(records)`. -/
def colPresent (rs : List RawRecord) (k : String) : Bool :=
  rs.any (fun r => hasKey r k)

/-- Is `c` an ASCII whitespace character (as stripped by Python numeric parsing). -/
def isSpaceChar (c : Char) : Bool :=
  (c == ' ') || (c == '\t') || (c == '\n') || (c == '\r')

/-- Strip leading and trailing whitespace. -/
def stripSpaces (cs : List Char) : List Char :=
  ((cs.dropWhile isSpaceChar).reverse.dropWhile isSpaceChar).reverse

/-- Consume an optional leading sign; returns (isNegative, rest). -/
def parseSign : List Char → (Bool × List Char)
  | '-' :: cs => (true, cs)
  | '+' :: cs => (false, cs)
  | cs => (false, cs)

/-- Consume a maximal run of decimal digits, accumulating their value and count. -/
def parseDigitsAux : List Char → ℕ → ℕ → (ℕ × ℕ × List Char)
  | [], acc, cnt => (acc, cnt, [])
  | c :: cs, acc, cnt =>
    if c.isDigit then parseDigitsAux cs (acc * 10 + (c.toNat - 48)) (cnt + 1)
    else (acc, cnt, c :: cs)

/-- Digit-level decomposition of a decimal/scientific numeric literal the way
`float(str)` (and hence `pd.to_numeric` on a string) reads it: optional sign,
digits with an optional fractional part (at least one digit overall), optional
exponent.  Returns `(negative, integer part, fraction digits value, fraction
digit count, exponent negative, exponent value)`, or `none` when the string is
not a numeric literal. -/
def parseParts (s : String) : Option (Bool × ℕ × ℕ × ℕ × Bool × ℕ) :=
  let cs0 := stripSpaces s.toList
  let sgn := parseSign cs0
  let ipr := parseDigitsAux sgn.2 0 0
  let fpr :=
    match ipr.2.2 with
    | '.' :: t => parseDigitsAux t 0 0
    | _ => (0, 0, ipr.2.2)
  if ipr.2.1 + fpr.2.1 = 0 then none
  else
    match fpr.2.2 with
    | [] => some (sgn.1, ipr.1, fpr.1, fpr.2.1, false, 0)
    | e :: t =>
      if e = 'e' ∨ e = 'E' then
        let esgn := parseSign t
        let epr := parseDigitsAux esgn.2 0 0
        if epr.2.1 = 0 ∨ epr.2.2 ≠ [] then none
        else some (sgn.1, ipr.1, fpr.1, fpr.2.1, esgn.1, epr.1)
      else none

/-- The exact rational value denoted by a decomposed numeric literal. -/
def partsToRat : Bool × ℕ × ℕ × ℕ × Bool × ℕ → ℚ
  | (neg, ip, fp, fc, eneg, ev) =>
    let mag : ℚ := (ip : ℚ) + (fp : ℚ) / (10 : ℚ) ^ fc
    let signed : ℚ := if neg then -mag else mag
    if eneg then signed / (10 : ℚ) ^ ev else signed * (10 : ℚ) ^ ev

/-- Parse a numeric string to its exact rational value, `none` on failure. -/
def parseFloat (s : String) : Option ℚ :=
  (parseParts s).map partsToRat

/-- `pd.to_numeric(errors="coerce")` applied to one cell: a number stays itself,
a string is parsed as a float literal, `null` and a missing key coerce to NaN
(`none`). -/
def coerceNum : Option JVal → Option ℚ
  | some (JVal.str s) => parseFloat s
  | some (JVal.num q) => some q
  | some JVal.null => none
  | none => none

/-- A liquidity-parameters row after the page-2 normalization step: `depth` and
`velocityMultiplier` are coerced to numbers with parse failures replaced by
`0.0` (`.fillna(0.0)`); the remaining fields pass through (we keep `symbol`). -/
structure LiqRow where
  symbol : Option JVal
  depth : ℚ
  velocityMultiplier : ℚ
deriving DecidableEq

/-- The page-2 normalizer.  `pd.DataFrame(data)` only creates columns for keys
appearing in at least one record, and `df["depth"]` raises `KeyError` when the
column does not exist, so the step fails when either listed field is absent
from every record of the snapshot; otherwise it is total, substituting `0.0`
for every unparsable or missing cell. -/
def liqNormalize (rs : List RawRecord) : Except String (List LiqRow) :=
  if colPresent rs "depth" = false then Except.error "KeyError: depth"
  else if colPresent rs "velocityMultiplier" = false then
    Except.error "KeyError: velocityMultiplier"
  else Except.ok (rs.map fun r =>
    { symbol := getVal r "symbol"
      depth := (coerceNum (getVal r "depth")).getD 0
      velocityMultiplier := (coerceNum (getVal r "velocityMultiplier")).getD 0 })

/-- Whether an `Except` computation succeeded. -/
def isOkE {α : Type} (e : Except String α) : Bool :=
  match e with
  | Except.ok _ => true
  | Except.error _ => false

/-- An IEEE-style division result: a finite rational, a signed infinity, or NaN. -/
inductive F where
  | fin (q : ℚ)
  | pinf
  | ninf
  | nan
deriving DecidableEq

/-- Division of two finite doubles, modelled exactly: a nonzero denominator
gives the exact quotient; `x / 0` gives `±inf` for `x ≠ 0` and NaN for `0 / 0`. -/
def qDiv (a b : ℚ) : F :=
  if b = 0 then (if a = 0 then F.nan else if 0 < a then F.pinf else F.ninf)
  else F.fin (a / b)

/-- The ε = 1e-12 constant the page uses to avoid division by zero. -/
def eps : ℚ := 1 / 1000000000000

/-- A liquidity row with the page-2 derived columns. -/
structure LiqDerived where
  symbol : Option JVal
  depth : ℚ
  velocityMultiplier : ℚ
  liquidityScore : ℚ
  stabilityScore : F
  efficiencyScore : F
  riskIndex : F
  undervaluedMetric : F
deriving DecidableEq

/-- The page-2 deriver for a single row (the `apply(..., axis=1)` lambdas and
elementwise column arithmetic). -/
def deriveRow (r : LiqRow) : LiqDerived :=
  let ls : ℚ := r.depth * r.velocityMultiplier
  { symbol := r.symbol
    depth := r.depth
    velocityMultiplier := r.velocityMultiplier
    liquidityScore := ls
    stabilityScore := qDiv r.depth (r.velocityMultiplier + eps)
    efficiencyScore := if 0 < r.depth then qDiv ls r.depth else F.fin 0
    riskIndex := qDiv r.velocityMultiplier (r.depth + eps)
    undervaluedMetric := if 0 < ls then qDiv r.depth (ls + eps) else F.pinf }

/-- The page-2 deriver over a whole snapshot. -/
def liqDerive (rows : List LiqRow) : List LiqDerived :=
  rows.map deriveRow

/-- Arithmetic mean of a list of rationals (`Series.mean` on NaN-free data). -/
def mean (l : List ℚ) : ℚ :=
  l.sum / l.length

/-- Population variance (`Series.var(ddof=0)`) of a list of rationals. -/
def popVar (l : List ℚ) : ℚ :=
  (l.map (fun x => (x - mean l) ^ 2)).sum / l.length

/-- The absolute tolerance of `np.isclose(x, 0.0)` with default parameters:
`|x - 0| ≤ atol + rtol * |0| = 1e-8`. -/
def iscloseAtol : ℚ := 1 / 100000000

/-- The denominator used for `attractivenessIndex`: the population variance of
`liquidityScore` across the snapshot, replaced by `1.0` when
`np.isclose(variance, 0.0)` holds, i.e. when `|variance| ≤ 1e-8`. -/
def attractivenessDenom (scores : List ℚ) : ℚ :=
  if |popVar scores| ≤ iscloseAtol then 1 else popVar scores

/-- The `liquidityScore` column of a derived snapshot. -/
def snapshotScores (rows : List LiqRow) : List ℚ :=
  (liqDerive rows).map (fun r => r.liquidityScore)

/-- The page-2 `attractivenessIndex` of a row with the given `depth` and
`velocityMultiplier`, inside a snapshot whose `liquidityScore` column is
`scores`: `log(max(depth * velocityMultiplier, ε))` divided by
`attractivenessDenom scores`. -/
noncomputable def attractivenessIndex (d v : ℚ) (scores : List ℚ) : ℝ :=
  Real.log (max ((d * v : ℚ) : ℝ) ((eps : ℚ) : ℝ)) / ((attractivenessDenom scores : ℚ) : ℝ)

/-- The variant of `attractivenessIndex` written after the specification's own
words, for comparison with the embedding of the source: the denominator is the
population variance itself whenever it is nonzero, and `1.0` is substituted
exactly when the whole-snapshot variance is exactly zero. -/
noncomputable def specAttractivenessIndex (d v : ℚ) (scores : List ℚ) : ℝ :=
  Real.log (max ((d * v : ℚ) : ℝ) ((eps : ℚ) : ℝ)) /
    (((if popVar scores = 0 then 1 else popVar scores) : ℚ) : ℝ)

/-- The single-record raw snapshot of the end-to-end scenario. -/
def rawSingle : List RawRecord :=
  [[("symbol", JVal.str "BTCRUSDPERP"), ("depth", JVal.str "100"),
    ("velocityMultiplier", JVal.str "2")]]

/-- A raw snapshot whose only record has `depth = "0"` and
`velocityMultiplier = "-1e-12"`, making the ε-shifted stability denominator
exactly zero. -/
def rawZeroNegEps : List RawRecord :=
  [[("depth", JVal.str "0"), ("velocityMultiplier", JVal.str "-1e-12")]]

/-- Truncation of a rational toward zero, the behavior of Python `int(float)`. -/
def qtrunc (q : ℚ) : ℤ :=
  q.num.tdiv (q.den : ℤ)

/-- Python `int(str)`: optional surrounding whitespace, optional sign, decimal
digits only; anything else raises (modelled by `none`). -/
def parseIntS (s : String) : Option ℤ :=
  let cs := stripSpaces s.toList
  let sgn := parseSign cs
  let dpr := parseDigitsAux sgn.2 0 0
  if dpr.2.1 = 0 ∨ dpr.2.2 ≠ [] then none
  else some (if sgn.1 then -(dpr.1 : ℤ) else (dpr.1 : ℤ))

/-- Python `int(x)` applied to one JSON cell, as in `_ts_to_dt`: numbers are
truncated toward zero, strings must be integer literals, `null` raises. -/
def parseIntPy : JVal → Option ℤ
  | JVal.num q => some (qtrunc q)
  | JVal.str s => parseIntS s
  | JVal.null => none

/-- The page-3 `_ts_to_dt` conversion of one timestamp cell:
`datetime.fromtimestamp(int(x) / 1000.0)` on success — the local instant at
`int(x) / 1000` seconds since the epoch — and the missing marker `pd.NaT`
(modelled `none`) on any conversion failure. -/
def tsToDt (x : Option JVal) : Option ℚ :=
  (x.bind parseIntPy).map (fun i => (i : ℚ) / 1000)

/-- Modelled from the spec: the claim says the timestamp is "formatted as
calendar date plus time to second precision"; this is the whole-second count
such a rendering denotes (fractional seconds dropped). -/
def specTsSeconds (x : Option JVal) : Option ℤ :=
  (x.bind parseIntPy).map (fun i => i.fdiv 1000)

/-- The instant (seconds since epoch) denoted by the spec's claimed
second-precision rendering, for comparison with `tsToDt`. -/
def specTsInstant (x : Option JVal) : Option ℚ :=
  (specTsSeconds x).map (fun n => (n : ℚ))

/-- A market-summary row after the page-3 normalization (`ensure_numeric` over
the eleven listed columns plus the `_ts_to_dt` timestamp conversion).  NaN is
modelled as `none`. -/
structure SummaryRow where
  symbol : Option JVal
  longOiQty : Option ℚ
  shortOiQty : Option ℚ
  oiQty : Option ℚ
  fundingRate : Option ℚ
  longFundingValue : Option ℚ
  shortFundingValue : Option ℚ
  fundingRateVelocity : Option ℚ
  volume24h : Option ℚ
  pxChange24h : Option ℚ
  throttledOraclePrice : Option ℚ
  throttledPoolPrice : Option ℚ
  updatedAtDt : Option ℚ
  pricesUpdatedAtDt : Option ℚ
deriving DecidableEq

/-- One cell of `ensure_numeric`: coerce when the column exists in the frame,
otherwise the whole column is NaN. -/
def normField (rs : List RawRecord) (r : RawRecord) (c : String) : Option ℚ :=
  if colPresent rs c then coerceNum (getVal r c) else none

/-- The page-3 `ensure_numeric` helper applied to one listed column of the
snapshot: total for every input, substituting NaN for every failure. -/
def ensureNumericCol (rs : List RawRecord) (c : String) : List (Option ℚ) :=
  rs.map (fun r => normField rs r c)

/-- One timestamp cell of the page-3 normalizer: the `_dt` column is only
created when the raw column exists. -/
def tsField (rs : List RawRecord) (r : RawRecord) (c : String) : Option ℚ :=
  if colPresent rs c then tsToDt (getVal r c) else none

/-- The page-3 normalizer: coerce the eleven listed numeric columns and convert
the timestamp columns. -/
def summaryNormalize (rs : List RawRecord) : List SummaryRow :=
  rs.map fun r =>
    { symbol := getVal r "symbol"
      longOiQty := normField rs r "longOiQty"
      shortOiQty := normField rs r "shortOiQty"
      oiQty := normField rs r "oiQty"
      fundingRate := normField rs r "fundingRate"
      longFundingValue := normField rs r "longFundingValue"
      shortFundingValue := normField rs r "shortFundingValue"
      fundingRateVelocity := normField rs r "fundingRateVelocity"
      volume24h := normField rs r "volume24h"
      pxChange24h := normField rs r "pxChange24h"
      throttledOraclePrice := normField rs r "throttledOraclePrice"
      throttledPoolPrice := normField rs r "throttledPoolPrice"
      updatedAtDt := tsField rs r "updatedAt"
      pricesUpdatedAtDt := tsField rs r "pricesUpdatedAt" }

/-- NaN-propagating addition of two double cells. -/
def oAdd : Option ℚ → Option ℚ → Option ℚ
  | some a, some b => some (a + b)
  | _, _ => none

/-- NaN-propagating subtraction of two double cells. -/
def oSub : Option ℚ → Option ℚ → Option ℚ
  | some a, some b => some (a - b)
  | _, _ => none

/-- NaN-propagating multiplication of two double cells. -/
def oMul : Option ℚ → Option ℚ → Option ℚ
  | some a, some b => some (a * b)
  | _, _ => none

/-- The page-3 derived column `oiImbalance = longOiQty - shortOiQty`. -/
def oiImbalance (r : SummaryRow) : Option ℚ :=
  oSub r.longOiQty r.shortOiQty

/-- The exponent of the least-significant significand bit of the IEEE-754
binary64 value nearest to a nonzero rational: the significand
`|q| / 2 ^ mantissaExp q` lies in `[2^52, 2^53)`. -/
def mantissaExp (q : ℚ) : ℤ :=
  Int.log 2 |q| - 52

/-- The (unrounded) 53-bit significand of a nonzero rational. -/
def mantissa (q : ℚ) : ℚ :=
  |q| / 2 ^ mantissaExp q

/-- The significand rounded to an integer: round to nearest, ties to even. -/
def roundMantissa (q : ℚ) : ℤ :=
  if mantissa q - ⌊mantissa q⌋ < 1 / 2 then ⌊mantissa q⌋
  else if 1 / 2 < mantissa q - ⌊mantissa q⌋ then ⌊mantissa q⌋ + 1
  else if ⌊mantissa q⌋ % 2 = 0 then ⌊mantissa q⌋ else ⌊mantissa q⌋ + 1

/-- Round a rational to the nearest IEEE-754 binary64 value (round to nearest,
ties to even, 53-bit significand, exponent range unbounded — overflow and
subnormals are outside the values this development evaluates). -/
def roundDouble (q : ℚ) : ℚ :=
  if q = 0 then 0
  else (if q < 0 then -(roundMantissa q : ℚ) else (roundMantissa q : ℚ)) * 2 ^ mantissaExp q

/-- binary64 subtraction of two double cells: the exact difference rounded to
the nearest double, with NaN propagated. -/
def oSub64 : Option ℚ → Option ℚ → Option ℚ
  | some a, some b => some (roundDouble (a - b))
  | _, _ => none

/-- binary64 addition of two double cells. -/
def oAdd64 : Option ℚ → Option ℚ → Option ℚ
  | some a, some b => some (roundDouble (a + b))
  | _, _ => none

/-- binary64 multiplication of two double cells. -/
def oMul64 : Option ℚ → Option ℚ → Option ℚ
  | some a, some b => some (roundDouble (a * b))
  | _, _ => none

/-- `oiImbalance` as the program's float64 hardware computes it. -/
def oiImbalance64 (r : SummaryRow) : Option ℚ :=
  oSub64 r.longOiQty r.shortOiQty

/-- A summary row with `longOiQty = 1e16` and `shortOiQty = 1`, on which
binary64 rounding breaks the oiImbalance identity. -/
def row7 : SummaryRow :=
  { symbol := none
    longOiQty := some 10000000000000000
    shortOiQty := some 1
    oiQty := none
    fundingRate := none
    longFundingValue := none
    shortFundingValue := none
    fundingRateVelocity := none
    volume24h := none
    pxChange24h := none
    throttledOraclePrice := none
    throttledPoolPrice := none
    updatedAtDt := none
    pricesUpdatedAtDt := none }

/-- `Series.sum(min_count=1)`: missing values are skipped, but when every value
is missing the result is itself missing ("no value"), not zero. -/
def sumMinCount1 (l : List (Option ℚ)) : Option ℚ :=
  if l.all (fun x => x.isNone) then none else some ((l.filterMap id).sum)

/-- The page-3 KPI `total_volume_24h = df["volume24h"].sum(min_count=1)`. -/
def totalVolume24h (rows : List SummaryRow) : Option ℚ :=
  sumMinCount1 (rows.map (fun r => r.volume24h))

/-- The page-3 KPI `total_oi = df["oiQty"].sum(min_count=1)`. -/
def totalOi (rows : List SummaryRow) : Option ℚ :=
  sumMinCount1 (rows.map (fun r => r.oiQty))

/-- The page-3 KPI `total_long_oi = df["longOiQty"].sum(min_count=1)`. -/
def totalLongOi (rows : List SummaryRow) : Option ℚ :=
  sumMinCount1 (rows.map (fun r => r.longOiQty))

/-- The page-3 KPI `total_short_oi = df["shortOiQty"].sum(min_count=1)`. -/
def totalShortOi (rows : List SummaryRow) : Option ℚ :=
  sumMinCount1 (rows.map (fun r => r.shortOiQty))

/-- The error raised out of a fetcher (`requests` exceptions and JSON decoding
errors), carrying its underlying cause. -/
inductive FetchError where
  | network (msg : String)
  | httpStatus (code : ℕ)
  | jsonParse
deriving DecidableEq

/-- The observable outcome of the HTTP GET underneath a fetcher: a response
with a status code and a body that either is or is not a JSON array of
records, or a transport-level failure (connection error or timeout). -/
inductive HttpOutcome where
  | response (status : ℕ) (body : Option (List RawRecord))
  | netFail (msg : String)
deriving DecidableEq

/-- The fetcher shared by all three pages: `requests.get` followed by
`raise_for_status()` (which raises exactly for client-error and server-error
status codes, `400 ≤ status < 600`, and for no others) and `resp.json()`
(which raises on a malformed body). -/
def runFetch : HttpOutcome → Except FetchError (List RawRecord)
  | HttpOutcome.netFail m => Except.error (FetchError.network m)
  | HttpOutcome.response s b =>
    if 400 ≤ s ∧ s < 600 then Except.error (FetchError.httpStatus s)
    else
      match b with
      | none => Except.error FetchError.jsonParse
      | some rs => Except.ok rs

/-- Message shown for a failed fetch, carrying the underlying cause. -/
def describeFetchError : FetchError → String
  | FetchError.network m => "Failed to fetch data: " ++ m
  | FetchError.httpStatus c => "Failed to fetch data: HTTP " ++ toString c
  | FetchError.jsonParse => "Failed to fetch data: invalid JSON"

/-- What a page render turns into: a rendered page, an error message displayed
by the page itself (`st.error` + `st.stop`), or an exception that escapes the
page script uncaught into the framework. -/
inductive RenderOutcome (α : Type) where
  | page (content : α)
  | errorShown (msg : String)
  | uncaughtException (msg : String)
deriving DecidableEq

/-- Whether the page itself displayed an error message. -/
def RenderOutcome.isErrorShown {α : Type} : RenderOutcome α → Bool
  | RenderOutcome.errorShown _ => true
  | _ => false

/-- The market-summaries page (page 3): the only page whose fetch is wrapped in
`try/except`; a failure is caught, displayed with `st.error`, and rendering
stops — no retry, no crash. -/
def marketSummariesPage (o : HttpOutcome) : RenderOutcome (List SummaryRow) :=
  match runFetch o with
  | Except.ok rs => RenderOutcome.page (summaryNormalize rs)
  | Except.error e => RenderOutcome.errorShown (describeFetchError e)

/-- The liquidity-parameters page (page 2): `data = get_liquidity_parameters()`
has no surrounding `try/except`, so a fetch failure (and a `KeyError` from the
normalization step) escapes the script uncaught. -/
def liquidityPage (o : HttpOutcome) : RenderOutcome (List LiqDerived) :=
  match runFetch o with
  | Except.ok rs =>
    match liqNormalize rs with
    | Except.ok rows => RenderOutcome.page (liqDerive rows)
    | Except.error k => RenderOutcome.uncaughtException k
  | Except.error e => RenderOutcome.uncaughtException (describeFetchError e)

/-- The market-definitions page (page 1): `data = get_market_definitions()`
has no surrounding `try/except` either. -/
def marketDefinitionsPage (o : HttpOutcome) : RenderOutcome (List RawRecord) :=
  match runFetch o with
  | Except.ok rs => RenderOutcome.page rs
  | Except.error e => RenderOutcome.uncaughtException (describeFetchError e)

/-- The single process-wide memo slot of one `st.cache_data` fetcher: the
cached snapshot and the time it was fetched. -/
structure Cache (α : Type) where
  slot : Option (α × ℚ)

/-- Modelled from the spec: the `st.cache_data(ttl=...)` memoization is
framework code not under src.  "A successful result is cached in process-wide
state keyed by (endpoint, nothing else — single global slot) with a
time-to-live; within the TTL window, repeated calls return the cached array
without a new network request", and a call after expiry issues one new request
and replaces the snapshot wholesale.  Returns (result, new cache state, number
of network requests issued). -/
def getOrRefresh {α : Type} (ttl : ℚ) (fetch : Unit → α) (now : ℚ) (c : Cache α) :
    α × Cache α × ℕ :=
  match c.slot with
  | some st =>
    if now - st.2 < ttl then (st.1, c, 0)
    else (fetch (), ⟨some (fetch (), now)⟩, 1)
  | none => (fetch (), ⟨some (fetch (), now)⟩, 1)

/-- TTL of `get_market_definitions` (`@st.cache_data(ttl=300)`). -/
def marketDefinitionsTtl : ℚ := 300

/-- TTL of `get_liquidity_parameters` (`@st.cache_data(ttl=300)`). -/
def liquidityParametersTtl : ℚ := 300

/-- TTL of `fetch_market_summary` (`@st.cache_data(ttl=1)`). -/
def marketSummaryTtl : ℚ := 1

/-- A concrete summary row used to instantiate aggregate theorems. -/
def row8 : SummaryRow :=
  { symbol := none
    longOiQty := some 1
    shortOiQty := some 2
    oiQty := some 3
    fundingRate := none
    longFundingValue := none
    shortFundingValue := none
    fundingRateVelocity := none
    volume24h := some 5
    pxChange24h := none
    throttledOraclePrice := none
    throttledPoolPrice := none
    updatedAtDt := none
    pricesUpdatedAtDt := none }

/-! Helper lemmas -/

/-- Digit decomposition of the literal "100". -/
theorem parseParts_100 : parseParts "100" = some (false, 100, 0, 0, false, 0) := by decide

/-- Digit decomposition of the literal "2". -/
theorem parseParts_2 : parseParts "2" = some (false, 2, 0, 0, false, 0) := by decide

/-- Digit decomposition of the literal "0". -/
theorem parseParts_0 : parseParts "0" = some (false, 0, 0, 0, false, 0) := by decide

/-- Digit decomposition of the literal "-1e-12". -/
theorem parseParts_neg1e12 : parseParts "-1e-12" = some (true, 1, 0, 0, true, 12) := by decide

/-- The string "100" parses to the rational 100. -/
theorem parseFloat_100 : parseFloat "100" = some 100 := by
  rw [parseFloat, parseParts_100]; norm_num [partsToRat]

/-- The string "2" parses to the rational 2. -/
theorem parseFloat_2 : parseFloat "2" = some 2 := by
  rw [parseFloat, parseParts_2]; norm_num [partsToRat]

/-- The string "0" parses to the rational 0. -/
theorem parseFloat_0 : parseFloat "0" = some 0 := by
  rw [parseFloat, parseParts_0]; norm_num [partsToRat]

/-- The string "-1e-12" parses to exactly −ε. -/
theorem parseFloat_negEps : parseFloat "-1e-12" = some (-eps) := by
  rw [parseFloat, parseParts_neg1e12]; norm_num [partsToRat, eps]

/-- Normalizing the single-record scenario snapshot succeeds with
`depth = 100` and `velocityMultiplier = 2`. -/
theorem liqNormalize_single :
    liqNormalize rawSingle = Except.ok [⟨some (JVal.str "BTCRUSDPERP"), 100, 2⟩] := by
  rw [liqNormalize, if_neg (by decide), if_neg (by decide)]
  simp only [rawSingle, List.map_cons, List.map_nil]
  have e1 : (coerceNum (getVal [("symbol", JVal.str "BTCRUSDPERP"), ("depth", JVal.str "100"),
      ("velocityMultiplier", JVal.str "2")] "depth")).getD 0 = (100 : ℚ) := by
    rw [show coerceNum (getVal [("symbol", JVal.str "BTCRUSDPERP"), ("depth", JVal.str "100"),
      ("velocityMultiplier", JVal.str "2")] "depth") = parseFloat "100" from rfl, parseFloat_100]
    rfl
  have e2 : (coerceNum (getVal [("symbol", JVal.str "BTCRUSDPERP"), ("depth", JVal.str "100"),
      ("velocityMultiplier", JVal.str "2")] "velocityMultiplier")).getD 0 = (2 : ℚ) := by
    rw [show coerceNum (getVal [("symbol", JVal.str "BTCRUSDPERP"), ("depth", JVal.str "100"),
      ("velocityMultiplier", JVal.str "2")] "velocityMultiplier") = parseFloat "2" from rfl,
      parseFloat_2]
    rfl
  rw [e1, e2]
  rfl

/-- Normalizing the `depth = "0"`, `velocityMultiplier = "-1e-12"` snapshot
succeeds, producing exactly the values 0 and −ε. -/
theorem liqNormalize_zeroNegEps :
    liqNormalize rawZeroNegEps = Except.ok [⟨none, 0, -eps⟩] := by
  rw [liqNormalize, if_neg (by decide), if_neg (by decide)]
  simp only [rawZeroNegEps, List.map_cons, List.map_nil]
  have e1 : (coerceNum (getVal [("depth", JVal.str "0"),
      ("velocityMultiplier", JVal.str "-1e-12")] "depth")).getD 0 = (0 : ℚ) := by
    rw [show coerceNum (getVal [("depth", JVal.str "0"),
      ("velocityMultiplier", JVal.str "-1e-12")] "depth") = parseFloat "0" from rfl, parseFloat_0]
    rfl
  have e2 : (coerceNum (getVal [("depth", JVal.str "0"),
      ("velocityMultiplier", JVal.str "-1e-12")] "velocityMultiplier")).getD 0 = (-eps : ℚ) := by
    rw [show coerceNum (getVal [("depth", JVal.str "0"),
      ("velocityMultiplier", JVal.str "-1e-12")] "velocityMultiplier") = parseFloat "-1e-12"
      from rfl, parseFloat_negEps]
    rfl
  rw [e1, e2]
  rfl

/-- Division with a nonzero denominator is finite. -/
theorem qDiv_of_ne (a b : ℚ) (hb : b ≠ 0) : qDiv a b = F.fin (a / b) := by
  rw [qDiv, if_neg hb]

/-- ε is positive. -/
theorem eps_pos : (0 : ℚ) < eps := by norm_num [eps]

/-- The population variance is nonnegative. -/
theorem popVar_nonneg (l : List ℚ) : 0 ≤ popVar l := by
  rw [popVar]
  apply div_nonneg
  · apply List.sum_nonneg
    intro x hx
    obtain ⟨y, _, rfl⟩ := List.mem_map.1 hx
    positivity
  · positivity

/-- `sum(min_count=1)` is missing exactly when every cell is missing. -/
theorem sumMinCount1_eq_none_iff (l : List (Option ℚ)) :
    sumMinCount1 l = none ↔ ∀ x ∈ l, x = none := by
  by_cases h : l.all (fun x => x.isNone)
  · simp only [sumMinCount1, if_pos h, true_iff]
    intro x hx
    have := List.all_eq_true.mp h x hx
    simpa [Option.isNone_iff_eq_none] using this
  · simp only [sumMinCount1, if_neg h]
    constructor
    · intro hc; exact absurd hc (by simp)
    · intro hall
      exact absurd (List.all_eq_true.mpr fun x hx => by simp [hall x hx]) h

/-- `sum(min_count=1)` adds up exactly the present cells as soon as one cell
is present. -/
theorem sumMinCount1_eq_some (l : List (Option ℚ)) (h : ∃ x ∈ l, x ≠ none) :
    sumMinCount1 l = some ((l.filterMap id).sum) := by
  rw [sumMinCount1, if_neg]
  intro hall
  obtain ⟨x, hx, hne⟩ := h
  exact hne (Option.isNone_iff_eq_none.mp (List.all_eq_true.mp hall x hx))

/-- A response with a status code outside [400, 600) and a well-formed body is
a successful fetch: `raise_for_status()` does not raise for it. -/
theorem runFetch_ge600 (rs : List RawRecord) :
    runFetch (HttpOutcome.response 600 (some rs)) = Except.ok rs := by
  rw [runFetch, if_neg (by norm_num)]

/-- 9999999999999999 sits in the binade `[2^53, 2^54)`. -/
theorem mantissaExp_n9 : mantissaExp (9999999999999999 : ℚ) = 1 := by
  rw [mantissaExp, abs_of_pos (by norm_num), Int.log_ofNat]
  rw [@Nat.log_eq_of_pow_le_of_lt_pow 2 53 9999999999999999 (by norm_num) (by norm_num)]
  norm_num

/-- Unrounded significand of 9999999999999999. -/
theorem mantissa_n9 : mantissa (9999999999999999 : ℚ) = 9999999999999999 / 2 := by
  rw [mantissa, mantissaExp_n9, abs_of_pos (by norm_num), zpow_one]

/-- The significand of 9999999999999999 is an exact tie and rounds up to the
even candidate. -/
theorem roundMantissa_n9 : roundMantissa (9999999999999999 : ℚ) = 5000000000000000 := by
  have hfl : ⌊mantissa (9999999999999999 : ℚ)⌋ = 4999999999999999 := by
    rw [mantissa_n9, Int.floor_eq_iff]
    constructor <;> norm_num
  rw [roundMantissa, hfl, mantissa_n9]
  norm_num

/-- 9999999999999999 rounds to the double 1e16 (its significand ties to even). -/
theorem roundDouble_n9 : roundDouble (9999999999999999 : ℚ) = 10000000000000000 := by
  rw [roundDouble, if_neg (by norm_num), if_neg (by norm_num), roundMantissa_n9,
    mantissaExp_n9, zpow_one]
  norm_num

/-- 2 sits in the binade `[2^1, 2^2)`. -/
theorem mantissaExp_two : mantissaExp (2 : ℚ) = -51 := by
  rw [mantissaExp, abs_of_pos (by norm_num), Int.log_ofNat]
  rw [@Nat.log_eq_of_pow_le_of_lt_pow 2 1 2 (by norm_num) (by norm_num)]
  norm_num

/-- Unrounded significand of 2: exactly `2^52`. -/
theorem mantissa_two : mantissa (2 : ℚ) = 4503599627370496 := by
  rw [mantissa, mantissaExp_two, abs_of_pos (by norm_num)]
  rw [show ((-51 : ℤ)) = -(51 : ℤ) from rfl, zpow_neg, div_inv_eq_mul]
  rw [show ((51 : ℤ)) = ((51 : ℕ) : ℤ) from rfl, zpow_natCast]
  norm_num

/-- The significand of 2 is already an integer. -/
theorem roundMantissa_two : roundMantissa (2 : ℚ) = 4503599627370496 := by
  have hfl : ⌊mantissa (2 : ℚ)⌋ = 4503599627370496 := by
    rw [mantissa_two, Int.floor_eq_iff]
    constructor <;> norm_num
  rw [roundMantissa, hfl, mantissa_two]
  norm_num

/-- 2 is exactly representable in binary64. -/
theorem roundDouble_two : roundDouble (2 : ℚ) = 2 := by
  rw [roundDouble, if_neg (by norm_num), if_neg (by norm_num), roundMantissa_two,
    mantissaExp_two]
  rw [show ((-51 : ℤ)) = -(51 : ℤ) from rfl, zpow_neg]
  rw [show ((51 : ℤ)) = ((51 : ℕ) : ℤ) from rfl, zpow_natCast]
  norm_num

/-- 10000000000000001 sits in the binade `[2^53, 2^54)`. -/
theorem mantissaExp_p1 : mantissaExp (10000000000000001 : ℚ) = 1 := by
  rw [mantissaExp, abs_of_pos (by norm_num), Int.log_ofNat]
  rw [@Nat.log_eq_of_pow_le_of_lt_pow 2 53 10000000000000001 (by norm_num) (by norm_num)]
  norm_num

/-- Unrounded significand of 10000000000000001. -/
theorem mantissa_p1 : mantissa (10000000000000001 : ℚ) = 10000000000000001 / 2 := by
  rw [mantissa, mantissaExp_p1, abs_of_pos (by norm_num), zpow_one]

/-- The significand of 10000000000000001 is an exact tie and rounds down to
the even candidate. -/
theorem roundMantissa_p1 : roundMantissa (10000000000000001 : ℚ) = 5000000000000000 := by
  have hfl : ⌊mantissa (10000000000000001 : ℚ)⌋ = 5000000000000000 := by
    rw [mantissa_p1, Int.floor_eq_iff]
    constructor <;> norm_num
  rw [roundMantissa, hfl, mantissa_p1]
  norm_num

/-- 1e16 + 1 rounds to the double 1e16 (tie to even). -/
theorem roundDouble_p1 : roundDouble (10000000000000001 : ℚ) = 10000000000000000 := by
  rw [roundDouble, if_neg (by norm_num), if_neg (by norm_num), roundMantissa_p1,
    mantissaExp_p1, zpow_one]
  norm_num

/-- 10000000000000002 sits in the binade `[2^53, 2^54)`. -/
theorem mantissaExp_p2 : mantissaExp (10000000000000002 : ℚ) = 1 := by
  rw [mantissaExp, abs_of_pos (by norm_num), Int.log_ofNat]
  rw [@Nat.log_eq_of_pow_le_of_lt_pow 2 53 10000000000000002 (by norm_num) (by norm_num)]
  norm_num

/-- Unrounded significand of 10000000000000002: already an integer. -/
theorem mantissa_p2 : mantissa (10000000000000002 : ℚ) = 5000000000000001 := by
  rw [mantissa, mantissaExp_p2, abs_of_pos (by norm_num), zpow_one]
  norm_num

/-- The significand of 10000000000000002 needs no rounding. -/
theorem roundMantissa_p2 : roundMantissa (10000000000000002 : ℚ) = 5000000000000001 := by
  have hfl : ⌊mantissa (10000000000000002 : ℚ)⌋ = 5000000000000001 := by
    rw [mantissa_p2, Int.floor_eq_iff]
    constructor <;> norm_num
  rw [roundMantissa, hfl, mantissa_p2]
  norm_num

/-- 1e16 + 2 is exactly representable in binary64. -/
theorem roundDouble_p2 : roundDouble (10000000000000002 : ℚ) = 10000000000000002 := by
  rw [roundDouble, if_neg (by norm_num), if_neg (by norm_num), roundMantissa_p2,
    mantissaExp_p2, zpow_one]
  norm_num

/-! Claim C1 -/

/-- C1 counterexample: on a snapshot whose single record carries no `depth`
key at all, the liquidity-page normalizer does not substitute a sentinel — it
fails with a `KeyError`, because `df["depth"]` is evaluated on a frame without
that column.  This refutes the claim that the Normalizer never fails for any
input, including when the field is absent from every record. -/
theorem c1_cex :
    liqNormalize [[("symbol", JVal.str "BTCRUSDPERP")]] = Except.error "KeyError: depth" := rfl

/-- C1 (amended): the page-3 normalizer `ensure_numeric` is total, producing
every listed column cell-by-cell and substituting the NaN sentinel on every
failure mode — key absent from the whole snapshot, key absent from the record,
`null` value, or unparsable string — while parsable numbers pass through.  The
liquidity-page normalizer, by contrast, succeeds exactly when each of `depth`
and `velocityMultiplier` appears in at least one record; on success both
columns substitute the sentinel 0.0 for every unparsable or missing cell. -/
theorem c1_amended (rs : List RawRecord) :
    isOkE (liqNormalize rs) = (colPresent rs "depth" && colPresent rs "velocityMultiplier")
    ∧ (∀ c, ensureNumericCol rs c = rs.map (fun r => normField rs r c))
    ∧ (∀ c r, r ∈ rs →
        (colPresent rs c = false → normField rs r c = none)
        ∧ (getVal r c = none → normField rs r c = none)
        ∧ (getVal r c = some JVal.null → normField rs r c = none)
        ∧ (∀ s, getVal r c = some (JVal.str s) → parseFloat s = none →
            normField rs r c = none)
        ∧ (∀ q, getVal r c = some (JVal.num q) → colPresent rs c = true →
            normField rs r c = some q))
    ∧ (∀ rows, liqNormalize rs = Except.ok rows →
        rows.map (fun r => r.depth)
          = rs.map (fun r => (coerceNum (getVal r "depth")).getD 0)
        ∧ rows.map (fun r => r.velocityMultiplier)
          = rs.map (fun r => (coerceNum (getVal r "velocityMultiplier")).getD 0)) := by
  refine ⟨?_, ?_, ?_, ?_⟩
  · by_cases h1 : colPresent rs "depth" <;> by_cases h2 : colPresent rs "velocityMultiplier" <;>
      simp [liqNormalize, isOkE, h1, h2]
  · intro c
    rfl
  · intro c r _
    refine ⟨?_, ?_, ?_, ?_, ?_⟩
    · intro h
      simp [normField, h]
    · intro h
      simp [normField, h, coerceNum]
    · intro h
      simp [normField, h, coerceNum]
    · intro s hs hps
      simp [normField, hs, coerceNum, hps]
    · intro q hq hp
      simp [normField, hp, hq, coerceNum]
  · intro rows h
    rw [liqNormalize] at h
    split_ifs at h
    injection h with h
    subst h
    constructor <;> simp [List.map_map, Function.comp]

/-- C1 witness: the amended theorem instantiated on the concrete one-record
snapshot of the end-to-end scenario — both 0.0-substituted columns of the
liquidity path, and the NaN substitution of `ensure_numeric` on the
unparsable `symbol` cell. -/
theorem c1_w :
    (([⟨some (JVal.str "BTCRUSDPERP"), 100, 2⟩] : List LiqRow).map (fun r => r.depth)
      = rawSingle.map (fun r => (coerceNum (getVal r "depth")).getD 0)
    ∧ ([⟨some (JVal.str "BTCRUSDPERP"), 100, 2⟩] : List LiqRow).map
        (fun r => r.velocityMultiplier)
      = rawSingle.map (fun r => (coerceNum (getVal r "velocityMultiplier")).getD 0))
    ∧ normField rawSingle [("symbol", JVal.str "BTCRUSDPERP"), ("depth", JVal.str "100"),
        ("velocityMultiplier", JVal.str "2")] "symbol" = none := by
  refine ⟨(c1_amended rawSingle).2.2.2 [⟨some (JVal.str "BTCRUSDPERP"), 100, 2⟩]
      liqNormalize_single, ?_⟩
  refine ((c1_amended rawSingle).2.2.1 "symbol"
      [("symbol", JVal.str "BTCRUSDPERP"), ("depth", JVal.str "100"),
        ("velocityMultiplier", JVal.str "2")] (by decide)).2.2.2.1 "BTCRUSDPERP" (by decide) ?_
  rw [parseFloat, show parseParts "BTCRUSDPERP" = none from by decide]
  rfl

/-! Claim C2 -/

/-- C2 counterexample: a two-market snapshot with liquidity scores 0 and
1/50000 has population variance 1e-10 — nonzero, yet within the `np.isclose`
tolerance — so the code divides by the substituted 1.0 while the claim
requires dividing by the variance itself; the two indices differ. -/
theorem c2_cex :
    attractivenessIndex 1 (1 / 50000) [0, 1 / 50000]
      ≠ specAttractivenessIndex 1 (1 / 50000) [0, 1 / 50000] := by
  have hv : popVar [0, (1 / 50000 : ℚ)] = 1 / 10000000000 := by
    norm_num [popVar, mean, List.sum_cons, List.sum_nil, List.map_cons, List.map_nil]
  have hd : attractivenessDenom [0, (1 / 50000 : ℚ)] = 1 := by
    rw [attractivenessDenom, if_pos]
    rw [hv, abs_of_nonneg (by norm_num)]
    norm_num [iscloseAtol]
  rw [attractivenessIndex, specAttractivenessIndex, hd, hv,
    if_neg (by norm_num : ¬((1 / 10000000000 : ℚ) = 0))]
  have harg : max (((1 : ℚ) * (1 / 50000) : ℚ) : ℝ) ((eps : ℚ) : ℝ) = 1 / 50000 := by
    rw [max_eq_left]
    · push_cast
      norm_num
    · push_cast [eps]
      norm_num
  rw [harg]
  have hlog : Real.log ((1 : ℝ) / 50000) ≠ 0 := by
    rw [Ne, Real.log_eq_zero]
    push_neg
    norm_num
  have hc1 : (((1 : ℚ)) : ℝ) = 1 := by norm_num
  have hc2 : (((1 / 10000000000 : ℚ)) : ℝ) = 1 / 10000000000 := by
    push_cast
    norm_num
  rw [hc1, hc2, div_one]
  intro h
  apply hlog
  rw [eq_div_iff (by norm_num : (1 / 10000000000 : ℝ) ≠ 0)] at h
  nlinarith [h]

/-- C2 (amended): `attractivenessIndex` is `ln(max(depth × velocityMultiplier,
ε))` divided by the population variance (ddof=0) of `liquidityScore` across
the snapshot, except that 1.0 is substituted as the denominator exactly when
that variance is at most 1e-8 (the `np.isclose(·, 0.0)` absolute tolerance),
not only when it is exactly zero; the variance is never negative. -/
theorem c2_amended (d v : ℚ) (scores : List ℚ) :
    0 ≤ popVar scores
    ∧ attractivenessIndex d v scores
        = Real.log (max ((d * v : ℚ) : ℝ) ((eps : ℚ) : ℝ))
            / (((if popVar scores ≤ iscloseAtol then (1 : ℚ) else popVar scores) : ℚ) : ℝ) := by
  refine ⟨popVar_nonneg scores, ?_⟩
  rw [attractivenessIndex, attractivenessDenom, abs_of_nonneg (popVar_nonneg scores)]

/-! Claim C3 -/

/-- C3 counterexample: for the raw timestamp 1500 (milliseconds), the code
produces the instant 1.5 seconds after the epoch — `int(x) / 1000.0` keeps
millisecond precision — while a rendering at second precision, as the claim
states, denotes the instant 1; the produced value is also a datetime object
(NaT on failure), not a string. -/
theorem c3_cex :
    tsToDt (some (JVal.num 1500)) = some (3 / 2)
    ∧ specTsInstant (some (JVal.num 1500)) = some 1
    ∧ ((3 / 2 : ℚ)) ≠ (1 : ℚ) := by
  have hb : (some (JVal.num 1500)).bind parseIntPy = some 1500 := by decide
  refine ⟨?_, ?_, by norm_num⟩
  · rw [tsToDt, hb]
    exact congrArg some (by norm_num)
  · rw [specTsInstant, specTsSeconds, hb]
    simp only [Option.map_some']
    rw [show (1500 : ℤ).fdiv 1000 = 1 from by decide]
    exact congrArg some (by norm_num)

/-- C3 (amended): for every record containing a timestamp field, the
normalizer produces a local datetime value, not a string: the missing marker
NaT on any conversion failure (exactly when Python `int(x)` fails), and
otherwise the instant `int(x) / 1000` seconds since the epoch, retaining
millisecond precision rather than truncating to whole seconds. -/
theorem c3_amended (x : Option JVal) :
    (tsToDt x = none ↔ x.bind parseIntPy = none)
    ∧ (∀ i : ℤ, x.bind parseIntPy = some i → tsToDt x = some ((i : ℚ) / 1000)) := by
  constructor
  · rw [tsToDt]
    cases h : x.bind parseIntPy <;> simp [h]
  · intro i h
    rw [tsToDt, h]
    rfl

/-- C3 witness: the amended theorem applied to the concrete raw timestamp
1500 ms. -/
theorem c3_w : tsToDt (some (JVal.num 1500)) = some ((1500 : ℚ) / 1000) :=
  (c3_amended (some (JVal.num 1500))).2 1500 (by decide)

/-! Claim C4 -/

/-- C4 counterexample: on a transport failure, the liquidity-parameters page
and the market-definitions page do not detect and display the error — the
exception escapes the page script uncaught (`data = get_liquidity_parameters()`
has no `try/except`), refuting the claim that each of the three pipelines'
presenters displays the error. -/
theorem c4_cex :
    (liquidityPage (HttpOutcome.netFail "connection refused")).isErrorShown = false
    ∧ (marketDefinitionsPage (HttpOutcome.netFail "connection refused")).isErrorShown = false
    ∧ liquidityPage (HttpOutcome.netFail "connection refused")
        = RenderOutcome.uncaughtException
            (describeFetchError (FetchError.network "connection refused")) :=
  ⟨rfl, rfl, rfl⟩

/-- C4 (amended): every failing fetch (network error, timeout, a 4xx or 5xx
status — `raise_for_status()` raises exactly for `400 ≤ status < 600` — or
malformed JSON) produces a `FetchError` carrying the underlying cause; the
market-summaries page alone catches it and displays the message, halting its
rendering without retrying and without crashing, while the liquidity and
market-definitions pages let the error escape uncaught to the framework. -/
theorem c4_amended (o : HttpOutcome) (e : FetchError) (h : runFetch o = Except.error e) :
    marketSummariesPage o = RenderOutcome.errorShown (describeFetchError e)
    ∧ liquidityPage o = RenderOutcome.uncaughtException (describeFetchError e)
    ∧ marketDefinitionsPage o = RenderOutcome.uncaughtException (describeFetchError e) := by
  refine ⟨?_, ?_, ?_⟩ <;> simp [marketSummariesPage, liquidityPage, marketDefinitionsPage, h]

/-- C4 witness: the amended theorem applied to a concrete connection failure. -/
theorem c4_w :
    marketSummariesPage (HttpOutcome.netFail "boom")
      = RenderOutcome.errorShown (describeFetchError (FetchError.network "boom")) :=
  (c4_amended (HttpOutcome.netFail "boom") (FetchError.network "boom") rfl).1

/-! Claim C5 -/

/-- C5 counterexample: the end-to-end scenario row has
`stabilityScore = 100 / (2 + ε)`, which is strictly less than 50 — the claimed
exact value 50 is not produced, because the deriver always adds ε = 1e-12 to
the `velocityMultiplier` denominator. -/
theorem c5_cex :
    liqNormalize rawSingle = Except.ok [⟨some (JVal.str "BTCRUSDPERP"), 100, 2⟩]
    ∧ (deriveRow ⟨some (JVal.str "BTCRUSDPERP"), 100, 2⟩).stabilityScore ≠ F.fin 50 := by
  refine ⟨liqNormalize_single, ?_⟩
  have hden : (2 : ℚ) + eps ≠ 0 := by norm_num [eps]
  simp only [deriveRow]
  rw [qDiv_of_ne _ _ hden]
  intro h
  injection h with h
  norm_num [eps] at h

/-- C5 (amended): on the raw input
`[{"symbol":"BTCRUSDPERP","depth":"100","velocityMultiplier":"2"}]` the
pipeline yields `liquidityScore = 200` and `efficiencyScore = 2` exactly,
`stabilityScore = 100 / (2 + ε)` (within 1e-9 of 50, but not exactly 50), and
`riskIndex = 2 / (100 + ε)` (within ε of 0.02). -/
theorem c5_amended :
    liqNormalize rawSingle = Except.ok [⟨some (JVal.str "BTCRUSDPERP"), 100, 2⟩]
    ∧ (deriveRow ⟨some (JVal.str "BTCRUSDPERP"), 100, 2⟩).liquidityScore = 200
    ∧ (deriveRow ⟨some (JVal.str "BTCRUSDPERP"), 100, 2⟩).efficiencyScore = F.fin 2
    ∧ (deriveRow ⟨some (JVal.str "BTCRUSDPERP"), 100, 2⟩).stabilityScore
        = F.fin (100 / (2 + eps))
    ∧ |100 / (2 + eps) - (50 : ℚ)| ≤ 1 / 1000000000
    ∧ (deriveRow ⟨some (JVal.str "BTCRUSDPERP"), 100, 2⟩).riskIndex = F.fin (2 / (100 + eps))
    ∧ |2 / (100 + eps) - (1 / 50 : ℚ)| ≤ eps := by
  have h2 : (2 : ℚ) + eps ≠ 0 := by norm_num [eps]
  have h100 : (100 : ℚ) + eps ≠ 0 := by norm_num [eps]
  refine ⟨liqNormalize_single, ?_, ?_, ?_, ?_, ?_, ?_⟩
  · simp only [deriveRow]
    norm_num
  · simp only [deriveRow]
    rw [if_pos (by norm_num : (0 : ℚ) < 100), qDiv_of_ne _ _ (by norm_num : (100 : ℚ) ≠ 0)]
    exact congrArg F.fin (by norm_num)
  · simp only [deriveRow]
    rw [qDiv_of_ne _ _ h2]
  · rw [abs_le]
    constructor <;> norm_num [eps]
  · simp only [deriveRow]
    rw [qDiv_of_ne _ _ h100]
  · rw [abs_le]
    constructor <;> norm_num [eps]

/-! Claim C6 -/

/-- C6: for every row of a derived liquidity snapshot, a row with `depth = 0`
gets `efficiencyScore = 0` through the explicit branch (not NaN), and a row
with `liquidityScore = 0` gets `undervaluedMetric = +∞` through the explicit
branch; the branch is the same for every such row of the snapshot. -/
theorem c6_thm (rows : List LiqRow) (r : LiqDerived) (h : r ∈ liqDerive rows) :
    (r.depth = 0 → r.efficiencyScore = F.fin 0)
    ∧ (r.liquidityScore = 0 → r.undervaluedMetric = F.pinf) := by
  rw [liqDerive] at h
  obtain ⟨x, hx, rfl⟩ := List.mem_map.1 h
  constructor
  · intro hd
    have hd' : x.depth = 0 := by simpa [deriveRow] using hd
    simp only [deriveRow]
    rw [if_neg (by rw [hd']; exact lt_irrefl 0)]
  · intro hl
    have hl' : x.depth * x.velocityMultiplier = 0 := by simpa [deriveRow] using hl
    simp only [deriveRow]
    rw [if_neg (by rw [hl']; exact lt_irrefl 0)]

/-- C6 witness: a concrete zero-depth row (hence zero liquidity score) takes
both explicit branches. -/
theorem c6_w :
    (deriveRow ⟨none, 0, 7⟩).efficiencyScore = F.fin 0
    ∧ (deriveRow ⟨none, 0, 7⟩).undervaluedMetric = F.pinf := by
  have hm : deriveRow ⟨none, 0, 7⟩ ∈ liqDerive [⟨none, 0, 7⟩] := by
    rw [liqDerive]
    exact List.mem_map_of_mem deriveRow (by simp)
  refine ⟨(c6_thm [⟨none, 0, 7⟩] _ hm).1 rfl, (c6_thm [⟨none, 0, 7⟩] _ hm).2 ?_⟩
  simp [deriveRow]

/-! Claim C7 -/

/-- C7 counterexample: in IEEE-754 binary64 arithmetic — each operation's
exact result rounded to nearest, ties to even — the identity fails on the row
`longOiQty = 1e16, shortOiQty = 1`: `oiImbalance` rounds `1e16 - 1` up to
`1e16`, so the left side is `1e16 + 2 = 10000000000000002`, while the right
side rounds `1e16 + 1` down to `10000000000000000`. -/
theorem c7_cex :
    oAdd64 (oiImbalance64 row7) (oMul64 (some 2) row7.shortOiQty)
      ≠ oAdd64 row7.longOiQty row7.shortOiQty := by
  have e1 : (10000000000000000 : ℚ) - 1 = 9999999999999999 := by norm_num
  have e2 : (2 : ℚ) * 1 = 2 := by norm_num
  have e3 : (10000000000000000 : ℚ) + 2 = 10000000000000002 := by norm_num
  have e4 : (10000000000000000 : ℚ) + 1 = 10000000000000001 := by norm_num
  simp only [oiImbalance64, row7, oSub64, oAdd64, oMul64, e1, e2, e3, e4,
    roundDouble_n9, roundDouble_two, roundDouble_p1, roundDouble_p2]
  intro h
  injection h with h
  norm_num at h

/-- C7 (amended): the identity `oiImbalance + 2 × shortOiQty = longOiQty +
shortOiQty` holds for every normalized market-summary row in exact
(infinitely precise) arithmetic with the missing marker propagated — it is an
algebraic identity of the derived column — but not exactly in IEEE-754 double
arithmetic, where rounding can break it. -/
theorem c7_thm (r : SummaryRow) :
    oAdd (oiImbalance r) (oMul (some 2) r.shortOiQty) = oAdd r.longOiQty r.shortOiQty := by
  rw [oiImbalance]
  cases r.longOiQty with
  | none => cases r.shortOiQty <;> rfl
  | some a =>
    cases r.shortOiQty with
    | none => rfl
    | some b => exact congrArg some (by ring)

/-! Claim C8 -/

/-- A `sum(min_count=1)` aggregate over a projected column is missing exactly
when the column is entirely missing. -/
theorem total_none_iff (rows : List SummaryRow) (f : SummaryRow → Option ℚ) :
    sumMinCount1 (rows.map f) = none ↔ ∀ r ∈ rows, f r = none := by
  rw [sumMinCount1_eq_none_iff]
  simp

/-- A `sum(min_count=1)` aggregate over a projected column adds up the present
cells as soon as one row has a value. -/
theorem total_some (rows : List SummaryRow) (f : SummaryRow → Option ℚ)
    (h : ∃ r ∈ rows, f r ≠ none) :
    sumMinCount1 (rows.map f) = some (((rows.map f).filterMap id).sum) := by
  apply sumMinCount1_eq_some
  obtain ⟨r, hr, hne⟩ := h
  exact ⟨f r, List.mem_map_of_mem _ hr, hne⟩

/-- C8: each of the four aggregate sums (24h volume, total OI, long OI, short
OI) ignores missing values when at least one value is present, and yields "no
value" (`none`, not zero) exactly when every value in the column is missing. -/
theorem c8_thm (rows : List SummaryRow) :
    (totalVolume24h rows = none ↔ ∀ r ∈ rows, r.volume24h = none)
    ∧ ((∃ r ∈ rows, r.volume24h ≠ none) →
        totalVolume24h rows = some (((rows.map (fun r => r.volume24h)).filterMap id).sum))
    ∧ (totalOi rows = none ↔ ∀ r ∈ rows, r.oiQty = none)
    ∧ ((∃ r ∈ rows, r.oiQty ≠ none) →
        totalOi rows = some (((rows.map (fun r => r.oiQty)).filterMap id).sum))
    ∧ (totalLongOi rows = none ↔ ∀ r ∈ rows, r.longOiQty = none)
    ∧ ((∃ r ∈ rows, r.longOiQty ≠ none) →
        totalLongOi rows = some (((rows.map (fun r => r.longOiQty)).filterMap id).sum))
    ∧ (totalShortOi rows = none ↔ ∀ r ∈ rows, r.shortOiQty = none)
    ∧ ((∃ r ∈ rows, r.shortOiQty ≠ none) →
        totalShortOi rows = some (((rows.map (fun r => r.shortOiQty)).filterMap id).sum)) := by
  refine ⟨?_, ?_, ?_, ?_, ?_, ?_, ?_, ?_⟩
  · rw [totalVolume24h]; exact total_none_iff rows _
  · intro h; rw [totalVolume24h]; exact total_some rows _ h
  · rw [totalOi]; exact total_none_iff rows _
  · intro h; rw [totalOi]; exact total_some rows _ h
  · rw [totalLongOi]; exact total_none_iff rows _
  · intro h; rw [totalLongOi]; exact total_some rows _ h
  · rw [totalShortOi]; exact total_none_iff rows _
  · intro h; rw [totalShortOi]; exact total_some rows _ h

/-- C8 witness: on a one-row snapshot whose only present aggregate input is
`volume24h = 5`, the volume total sums the present values to 5. -/
theorem c8_w : totalVolume24h [row8] = some 5 := by
  have h := (c8_thm [row8]).2.1 ⟨row8, by simp, by simp [row8]⟩
  simpa [row8] using h

/-! Claim C9 -/

/-- C9: a cold call through the memo slot issues exactly one request and
stores the snapshot with its fetch time; a second call strictly within the
TTL window returns the cached snapshot with no request; a call at or past
expiry issues exactly one request and replaces the snapshot wholesale.  The
TTLs are 300 s for market definitions and liquidity parameters and 1 s for
market summaries. -/
theorem c9_thm {α : Type} (ttl : ℚ) (f1 f2 : Unit → α) (t0 t1 : ℚ) :
    getOrRefresh ttl f1 t0 ⟨none⟩ = (f1 (), ⟨some (f1 (), t0)⟩, 1)
    ∧ (t1 - t0 < ttl →
        getOrRefresh ttl f2 t1 ⟨some (f1 (), t0)⟩ = (f1 (), ⟨some (f1 (), t0)⟩, 0))
    ∧ (ttl ≤ t1 - t0 →
        getOrRefresh ttl f2 t1 ⟨some (f1 (), t0)⟩ = (f2 (), ⟨some (f2 (), t1)⟩, 1))
    ∧ marketDefinitionsTtl = 300 ∧ liquidityParametersTtl = 300 ∧ marketSummaryTtl = 1 := by
  refine ⟨rfl, fun h => ?_, fun h => ?_, rfl, rfl, rfl⟩
  · simp only [getOrRefresh]
    rw [if_pos h]
  · simp only [getOrRefresh]
    rw [if_neg (not_lt.mpr h)]

/-- C9 witness: with TTL 300, a second call at time 100 serves the cached
snapshot without a request, and a call at time 400 issues one request and
replaces the snapshot. -/
theorem c9_w :
    getOrRefresh 300 (fun _ => (7 : ℕ)) 100 ⟨some ((5 : ℕ), 0)⟩ = (5, ⟨some (5, 0)⟩, 0)
    ∧ getOrRefresh 300 (fun _ => (7 : ℕ)) 400 ⟨some ((5 : ℕ), 0)⟩ = (7, ⟨some (7, 400)⟩, 1) :=
  ⟨(c9_thm 300 (fun _ => (5 : ℕ)) (fun _ => 7) 0 100).2.1 (by norm_num),
   (c9_thm 300 (fun _ => (5 : ℕ)) (fun _ => 7) 0 400).2.2.1 (by norm_num)⟩

/-! Claim C10 -/

/-- C10 counterexample: the raw record `{"depth": "0", "velocityMultiplier":
"-1e-12"}` normalizes successfully (both cells parse, no sentinel involved),
yet its `stabilityScore` is NaN: the ε-shifted denominator
`velocityMultiplier + ε` is exactly zero and the numerator `depth` is zero,
so the division is 0/0.  This refutes the claim that the derived columns are
never NaN for any row of any raw snapshot. -/
theorem c10_cex :
    liqNormalize rawZeroNegEps = Except.ok [⟨none, 0, -eps⟩]
    ∧ (deriveRow ⟨none, 0, -eps⟩).stabilityScore = F.nan := by
  refine ⟨liqNormalize_zeroNegEps, ?_⟩
  simp only [deriveRow]
  rw [show (-eps + eps : ℚ) = 0 from by ring, qDiv]
  simp

/-- C10 (amended): after normalization the `depth` and `velocityMultiplier`
columns contain plain numbers (every parse failure became 0.0), and for every
derived row: `efficiencyScore` is never NaN, `undervaluedMetric` is always
either +∞ or a finite number — including rows whose inputs both defaulted to
0 — and `stabilityScore` (resp. `riskIndex`) is never NaN except in the
degenerate case where its ε-shifted denominator is exactly zero and its
numerator is zero, i.e. `velocityMultiplier = −ε` and `depth = 0` (resp.
`depth = −ε` and `velocityMultiplier = 0`); when only the denominator
degenerates the value is ±∞, not NaN. -/
theorem c10_amended (rows : List LiqRow) (r : LiqDerived) (h : r ∈ liqDerive rows) :
    r.efficiencyScore ≠ F.nan
    ∧ (r.velocityMultiplier ≠ -eps ∨ r.depth ≠ 0 → r.stabilityScore ≠ F.nan)
    ∧ (r.depth ≠ -eps ∨ r.velocityMultiplier ≠ 0 → r.riskIndex ≠ F.nan)
    ∧ (r.undervaluedMetric = F.pinf ∨ ∃ q : ℚ, r.undervaluedMetric = F.fin q) := by
  rw [liqDerive] at h
  obtain ⟨x, hx, rfl⟩ := List.mem_map.1 h
  refine ⟨?_, ?_, ?_, ?_⟩
  · simp only [deriveRow]
    by_cases hd : 0 < x.depth
    · rw [if_pos hd, qDiv_of_ne _ _ hd.ne']
      simp
    · rw [if_neg hd]
      simp
  · intro hcase
    by_cases hv : x.velocityMultiplier = -eps
    · have hd : x.depth ≠ 0 := by
        rcases hcase with h1 | h1
        · exact absurd hv (by simpa [deriveRow] using h1)
        · simpa [deriveRow] using h1
      simp only [deriveRow]
      rw [hv, show (-eps + eps : ℚ) = 0 from by ring, qDiv, if_pos rfl, if_neg hd]
      split_ifs <;> simp
    · have hden : x.velocityMultiplier + eps ≠ 0 := by
        intro h0
        exact hv (by linarith)
      simp only [deriveRow]
      rw [qDiv_of_ne _ _ hden]
      simp
  · intro hcase
    by_cases hd : x.depth = -eps
    · have hv : x.velocityMultiplier ≠ 0 := by
        rcases hcase with h1 | h1
        · exact absurd hd (by simpa [deriveRow] using h1)
        · simpa [deriveRow] using h1
      simp only [deriveRow]
      rw [hd, show (-eps + eps : ℚ) = 0 from by ring, qDiv, if_pos rfl, if_neg hv]
      split_ifs <;> simp
    · have hden : x.depth + eps ≠ 0 := by
        intro h0
        exact hd (by linarith)
      simp only [deriveRow]
      rw [qDiv_of_ne _ _ hden]
      simp
  · simp only [deriveRow]
    by_cases hl : 0 < x.depth * x.velocityMultiplier
    · rw [if_pos hl, qDiv_of_ne _ _ (add_pos hl eps_pos).ne']
      exact Or.inr ⟨_, rfl⟩
    · rw [if_neg hl]
      exact Or.inl rfl

/-- C10 witness: the amended theorem applied to concrete rows — a
well-behaved row, and a row hitting the denominator-only degenerate case
`velocityMultiplier = −ε` with nonzero depth, whose stability is still not
NaN. -/
theorem c10_w :
    ((deriveRow ⟨none, 3, 4⟩).efficiencyScore ≠ F.nan
    ∧ (deriveRow ⟨none, 3, 4⟩).stabilityScore ≠ F.nan)
    ∧ (deriveRow ⟨none, 5, -eps⟩).stabilityScore ≠ F.nan := by
  have hm : deriveRow ⟨none, 3, 4⟩ ∈ liqDerive [⟨none, 3, 4⟩] := by
    rw [liqDerive]
    exact List.mem_map_of_mem deriveRow (by simp)
  have h := c10_amended [⟨none, 3, 4⟩] (deriveRow ⟨none, 3, 4⟩) hm
  have hm2 : deriveRow ⟨none, 5, -eps⟩ ∈ liqDerive [⟨none, 5, -eps⟩] := by
    rw [liqDerive]
    exact List.mem_map_of_mem deriveRow (by simp)
  have h2 := c10_amended [⟨none, 5, -eps⟩] (deriveRow ⟨none, 5, -eps⟩) hm2
  exact ⟨⟨h.1, h.2.1 (Or.inl (by norm_num [deriveRow, eps]))⟩,
    h2.2.1 (Or.inr (by norm_num [deriveRow]))⟩

end Reya
